import Mathlib

/-!
Shallow embedding of the asset refresh & history-retention pipeline of the
financial_data_aggregator repository (src/services/asset_service.py and
src/utils/db_utils.py), together with proofs of the spec's claims about it.

Modelling conventions:
* Timestamps are produced by `datetime.now().isoformat()`; successive ISO
  strings of the same format compare lexicographically like the instants they
  denote, and the microsecond field makes successive calls strictly
  increasing.  We model the wall clock as a `Nat` counter carried in the
  store, each `now` call returning the counter and incrementing it.
* Metric values are floats that the modelled code only stores and copies,
  never computes with; they are modelled as `Int`.
* The TinyDB tables are modelled as Lean lists.  TinyDB assigns each
  history document a fresh increasing id at insertion (modelled by the
  `nextDocId` counter and the `doc_id` field), but that id lives on the
  Document object only as an attribute: the stored mapping written by
  `save_asset_metadata` has no 'doc_id' key, so the dictionary lookup
  `e.get('doc_id')` performed by `trim_asset_history` returns None for
  every entry (modelled by `getDocIdKey`).
* `Python`'s `sorted` is a stable sort; `List.insertionSort` is also stable,
  and any two stable sorts by the same key agree, so the embedding of the
  two `sorted(...)` calls is exact (including `reverse=True`, modelled by
  sorting with the flipped key comparison, which is what CPython does while
  keeping equal-key elements in original order).
* The external data source (`yfinance` via `fetch_financial_data`) and the
  existence check `is_valid_symbol` are opaque collaborators, modelled as
  explicit oracle parameters.  `fetch_financial_data` returns either `{}`
  (modelled `none`) or a record whose `symbol` key equals the requested
  symbol plus the three metric floats (modelled `some` of the metric
  fields).
-/

/-- Metric payload of one fetch: the three float fields that
`fetch_financial_data` computes and the store persists. -/
structure MetricFields where
  latest_price : Int
  change_percent_24h : Int
  average_price_7d : Int
deriving DecidableEq, Repr

/-- One document of the TinyDB `history` table, as written by
`save_asset_metadata`; `doc_id` is the id TinyDB assigns at insertion and
exposes as an attribute of its Document object — the stored mapping itself
carries no 'doc_id' key (see `getDocIdKey`). -/
structure HistoryEntry where
  symbol : String
  timestamp : Nat
  metadata : MetricFields
  doc_id : Nat
deriving DecidableEq, Repr

/-- One document of the TinyDB `current` table, as written by
`save_asset_metadata`. -/
structure CurrentRecord where
  symbol : String
  latest_price : Int
  change_percent_24h : Int
  average_price_7d : Int
  last_updated : Nat
deriving DecidableEq, Repr

/-- The pydantic model `AssetWithMetadata` (src/schemas.py): every field but
`symbol` defaults to `None`. -/
structure AssetWithMetadata where
  symbol : String
  latest_price : Option Int := none
  change_percent_24h : Option Int := none
  average_price_7d : Option Int := none
  last_updated : Option Nat := none
deriving DecidableEq, Repr

/-- The whole persistent state: the three TinyDB tables (`symbols`,
`history`, `current`), TinyDB's next document id for the history table, and
the modelled wall clock. -/
structure Store where
  symbolsTable : List (List String)
  historyTable : List HistoryEntry
  currentTable : List CurrentRecord
  nextDocId : Nat
  clock : Nat
deriving DecidableEq, Repr

/-- Result dictionary returned by `ingest_assets_service`. -/
structure BatchResult where
  message : String
  updated_count : Nat
  success_messages : List String
  error_messages : List String
  updated_assets : List String
deriving DecidableEq, Repr

/-- Python `str.isupper()` restricted to the ASCII symbols this system
handles: at least one cased character, and no cased character is lowercase. -/
def pyIsUpper (s : String) : Bool :=
  s.data.any (fun c => c.isUpper || c.isLower) && s.data.all (fun c => !c.isLower)

/-- Python `str.endswith(suffix)`: the suffix's characters end the
string. -/
def pyEndsWith (s suffix : String) : Bool :=
  List.isSuffixOf suffix.data s.data

/-- `validate_symbol_format` (db_utils.py): crypto pairs end in "-USD",
equity tickers satisfy `isupper()`. -/
def validate_symbol_format (symbol : String) : Bool :=
  pyEndsWith symbol "-USD" || pyIsUpper symbol

/-- Default symbols seeded by `get_symbols` on an empty store. -/
def default_symbols : List String := ["BTC-USD", "ETH-USD", "TSLA"]

/-- `get_symbols` (db_utils.py): returns the `symbols` field of the first
document of the symbols table; on an empty table it seeds (persists) the
default symbols and returns them. -/
def get_symbols (st : Store) : List String × Store :=
  match st.symbolsTable with
  | [] => (default_symbols, { st with symbolsTable := [default_symbols] })
  | d :: _ => (d, st)

/-- `truncate_db` (db_utils.py): clears the symbols and history tables.  The
`current` table is not touched by the source. -/
def truncate_db (st : Store) : Store :=
  { st with symbolsTable := [], historyTable := [] }

/-- `save_symbols` (db_utils.py): keeps format-valid symbols, filters them by
the existence oracle, merges with the existing set (`list(set(...))`,
modelled by `List.dedup`, whose iteration order Python leaves unspecified
and no claim depends on), and rewrites the symbols table. -/
def save_symbols (is_valid : String → Bool) (symbols : List String) (st : Store) :
    List String × Store :=
  let format_valid := symbols.filter validate_symbol_format
  if format_valid.isEmpty then ([], st)
  else
    let valid_symbols := format_valid.filter is_valid
    if valid_symbols.isEmpty then ([], st)
    else
      let p := get_symbols st
      let updated_symbols := (p.1 ++ valid_symbols).dedup
      (updated_symbols, { p.2 with symbolsTable := [updated_symbols] })

/-- Ascending key comparison used by `sorted(entries, key=...timestamp)`. -/
def tsLe (a b : HistoryEntry) : Prop := a.timestamp ≤ b.timestamp

/-- Descending key comparison used by `sorted(..., reverse=True)`. -/
def tsGe (a b : HistoryEntry) : Prop := b.timestamp ≤ a.timestamp

instance : DecidableRel tsLe := fun a b => Nat.decLe a.timestamp b.timestamp

instance : DecidableRel tsGe := fun a b => Nat.decLe b.timestamp a.timestamp

instance : IsTotal HistoryEntry tsLe := ⟨fun a b => Nat.le_total a.timestamp b.timestamp⟩

instance : IsTrans HistoryEntry tsLe := ⟨fun _ _ _ h h' => Nat.le_trans h h'⟩

instance : IsTotal HistoryEntry tsGe := ⟨fun a b => Nat.le_total b.timestamp a.timestamp⟩

instance : IsTrans HistoryEntry tsGe := ⟨fun _ _ _ h h' => Nat.le_trans h' h⟩

/-- Python `e.get('doc_id')` on a history document: `save_asset_metadata`
stores only the keys symbol, timestamp and metadata, and TinyDB exposes the
document id as an attribute of its Document object, never as a mapping key,
so this lookup misses on every history entry and returns None. -/
def getDocIdKey (_e : HistoryEntry) : Option Nat := none

/-- `trim_asset_history` (asset_service.py): if more than `keep_last`
entries exist for the symbol, sort them ascending by timestamp, take the
oldest `count - keep_last`, and collect the ids `e.get('doc_id')` that are
not None from them.  That lookup yields None for every entry (see
`getDocIdKey`), so `doc_ids` is always empty, the removal branch is dead
and the function returns the table unchanged. -/
def trim_asset_history (symbol : String) (keep_last : Nat)
    (history_table : List HistoryEntry) : List HistoryEntry :=
  let entries := history_table.filter (fun e => e.symbol == symbol)
  if entries.length > keep_last then
    let entries_sorted := List.insertionSort tsLe entries
    let to_remove := entries_sorted.take (entries.length - keep_last)
    let doc_ids := to_remove.filterMap (fun e => getDocIdKey e)
    if doc_ids.isEmpty then history_table
    else history_table.filter (fun e => !(doc_ids.contains e.doc_id))
  else history_table

/-- The `history_entry` dictionary built by `save_asset_metadata`. -/
def historyEntryFor (symbol : String) (m : MetricFields) (t d : Nat) : HistoryEntry :=
  { symbol := symbol, timestamp := t, metadata := m, doc_id := d }

/-- The `current_metadata` dictionary built by `save_asset_metadata`: the
metric fields plus `last_updated` and `symbol`. -/
def currentRecordFor (symbol : String) (m : MetricFields) (t : Nat) : CurrentRecord :=
  { symbol := symbol
    latest_price := m.latest_price
    change_percent_24h := m.change_percent_24h
    average_price_7d := m.average_price_7d
    last_updated := t }

/-- `save_asset_metadata` (db_utils.py): stamps one fresh timestamp, appends
a history entry carrying it, and upserts the current record for the symbol
with the same timestamp. -/
def save_asset_metadata (symbol : String) (metadata : MetricFields) (st : Store) : Store :=
  { st with
    historyTable := st.historyTable ++ [historyEntryFor symbol metadata st.clock st.nextDocId]
    nextDocId := st.nextDocId + 1
    clock := st.clock + 1
    currentTable :=
      if st.currentTable.any (fun r => r.symbol == symbol) then
        st.currentTable.map (fun r =>
          if r.symbol == symbol then currentRecordFor symbol metadata st.clock else r)
      else
        st.currentTable ++ [currentRecordFor symbol metadata st.clock] }

/-- `get_asset_history` (db_utils.py): the symbol's entries sorted newest
first, truncated to `limit`. -/
def get_asset_history (symbol : String) (limit : Nat)
    (history_table : List HistoryEntry) : List HistoryEntry :=
  let results := history_table.filter (fun e => e.symbol == symbol)
  let sorted_results := List.insertionSort tsGe results
  sorted_results.take limit

/-- Message produced by `ingest_assets_service` when a fetch returns empty. -/
def couldNotFetchMsg (s : String) : String := "Could not fetch data for " ++ s

/-- Message produced by `ingest_assets_service` for an already-tracked symbol. -/
def updatedMsg (s : String) : String := "Updated " ++ s

/-- Failure message of `add_symbol_with_metadata` on a format-invalid symbol. -/
def invalidFormatMsg (s : String) : String := "Invalid symbol format: " ++ s

/-- Failure message of `add_symbol_with_metadata` when the existence check fails. -/
def notValidMsg (s : String) : String := "Symbol does not exist or is not valid: " ++ s

/-- Success message of `add_symbol_with_metadata`. -/
def addedMsg (s : String) : String := "Successfully added " ++ s ++ " with metadata"

/-- Leading message of the `ingest_assets_service` result dictionary. -/
def processedMsg (n : Nat) : String := "Processed " ++ toString n ++ " symbols"

/-- `add_symbol_with_metadata` (db_utils.py): format check, existence check,
conditional append to the tracked set, then `save_asset_metadata`. -/
def add_symbol_with_metadata (is_valid : String → Bool) (symbol : String)
    (metadata : MetricFields) (st : Store) : (Bool × String) × Store :=
  if ¬ validate_symbol_format symbol then
    ((false, invalidFormatMsg symbol), st)
  else if ¬ is_valid symbol then
    ((false, notValidMsg symbol), st)
  else
    let p := get_symbols st
    let st1 :=
      if symbol ∈ p.1 then p.2
      else { p.2 with symbolsTable := [p.1 ++ [symbol]] }
    ((true, addedMsg symbol), save_asset_metadata symbol metadata st1)

/-- `build_asset_with_metadata` (asset_service.py): wraps a fetch result in
an `AssetWithMetadata`, stamping `last_updated` with a fresh `now` value. -/
def build_asset_with_metadata (symbol : String) (m : MetricFields) (t : Nat) :
    AssetWithMetadata :=
  { symbol := symbol
    latest_price := some m.latest_price
    change_percent_24h := some m.change_percent_24h
    average_price_7d := some m.average_price_7d
    last_updated := some t }

/-- `fetch_and_save_asset` (asset_service.py): fetch; on a non-empty result
save the snapshot, trim that symbol's history to the default 10, and return
the built record; otherwise return `none`.  The fetched record's `symbol`
key equals the requested symbol (see `fetch_financial_data`). -/
def fetch_and_save_asset (fetch : String → Option MetricFields) (symbol : String)
    (st : Store) : Option AssetWithMetadata × Store :=
  match fetch symbol with
  | none => (none, st)
  | some m =>
    let st1 := save_asset_metadata symbol m st
    let st2 := { st1 with historyTable := trim_asset_history symbol 10 st1.historyTable }
    (some (build_asset_with_metadata symbol m st2.clock), { st2 with clock := st2.clock + 1 })

/-- The `asyncio.gather` fan-out of `fetch_and_save_asset` over the input
symbols.  The cooperative scheduler serializes the synchronous store writes;
the result list is in input order regardless of completion order. -/
def gatherFetch (fetch : String → Option MetricFields) :
    List String → Store → List (Option AssetWithMetadata) × Store
  | [], st => ([], st)
  | s :: rest, st =>
    let p := fetch_and_save_asset fetch s st
    let q := gatherFetch fetch rest p.2
    (p.1 :: q.1, q.2)

/-- The placeholder `AssetWithMetadata(symbol=symbol)` that
`add_assets_service` emits for a failed fetch: all metric fields unset. -/
def placeholderAsset (symbol : String) : AssetWithMetadata :=
  { symbol := symbol }

/-- `add_assets_service` (asset_service.py): fan out `fetch_and_save_asset`,
then pair results back with the input symbols, substituting the bare-symbol
placeholder `AssetWithMetadata(symbol=symbol)` for failed fetches. -/
def add_assets_service (fetch : String → Option MetricFields) (symbols : List String)
    (st : Store) : List AssetWithMetadata × Store :=
  let p := gatherFetch fetch symbols st
  let assets_with_metadata :=
    (symbols.zip p.1).map (fun sa =>
      match sa.2 with
      | some asset => asset
      | none => placeholderAsset sa.1)
  (assets_with_metadata, p.2)

/-- Metric fields the ingestion loop passes to `add_symbol_with_metadata`,
read off the just-built asset; on that path every field is `some`. -/
def assetFields (a : AssetWithMetadata) : MetricFields :=
  { latest_price := a.latest_price.getD 0
    change_percent_24h := a.change_percent_24h.getD 0
    average_price_7d := a.average_price_7d.getD 0 }

/-- The sequential per-symbol loop of `ingest_assets_service`, threading the
accumulated results, success messages, error messages and the store.
`all_symbols` is the tracked set read once before the loop. -/
def ingestLoop (fetch : String → Option MetricFields) (is_valid : String → Bool)
    (all_symbols : List String) :
    List String → List AssetWithMetadata → List String → List String → Store →
    List AssetWithMetadata × List String × List String × Store
  | [], results, succ, err, st => (results, succ, err, st)
  | s :: rest, results, succ, err, st =>
    let p := fetch_and_save_asset fetch s st
    match p.1 with
    | some asset =>
      if s ∈ all_symbols then
        ingestLoop fetch is_valid all_symbols rest (results ++ [asset])
          (succ ++ [updatedMsg s]) err p.2
      else
        let q := add_symbol_with_metadata is_valid s (assetFields asset) p.2
        if q.1.1 then
          ingestLoop fetch is_valid all_symbols rest (results ++ [asset])
            (succ ++ [q.1.2]) err q.2
        else
          ingestLoop fetch is_valid all_symbols rest (results ++ [asset])
            succ (err ++ [q.1.2]) q.2
    | none =>
      ingestLoop fetch is_valid all_symbols rest results succ
        (err ++ [couldNotFetchMsg s]) p.2

/-- `ingest_assets_service` (asset_service.py): read the tracked set once,
run the sequential loop, and assemble the result dictionary. -/
def ingest_assets_service (fetch : String → Option MetricFields)
    (is_valid : String → Bool) (update_symbols : List String) (st : Store) :
    BatchResult × Store :=
  let p := get_symbols st
  let q := ingestLoop fetch is_valid p.1 update_symbols [] [] [] p.2
  ({ message := processedMsg update_symbols.length
     updated_count := q.1.length
     success_messages := q.2.1
     error_messages := q.2.2.1
     updated_assets := q.1.map (fun r => r.symbol) }, q.2.2.2)

/-- Well-formedness of a reachable store: TinyDB document ids in the history
table are pairwise distinct and below the next-id counter, and every stored
timestamp was produced by an earlier `now` call, hence is below the clock. -/
def WF (st : Store) : Prop :=
  (st.historyTable.map (fun e => e.doc_id)).Nodup
  ∧ (∀ e ∈ st.historyTable, e.doc_id < st.nextDocId)
  ∧ (∀ e ∈ st.historyTable, e.timestamp < st.clock)
  ∧ (∀ r ∈ st.currentTable, r.last_updated < st.clock)

/-- History entries of one symbol, in table order. -/
def symHistory (symbol : String) (history_table : List HistoryEntry) : List HistoryEntry :=
  history_table.filter (fun e => e.symbol == symbol)

/-- Largest timestamp of a list of entries (0 for the empty list). -/
def maxTs (l : List HistoryEntry) : Nat :=
  (l.map (fun e => e.timestamp)).foldr max 0

/-- Timestamp coherence: for every current record whose symbol has history,
`last_updated` equals the newest history timestamp of that symbol. -/
def timestampCoherent (st : Store) : Prop :=
  ∀ r ∈ st.currentTable, symHistory r.symbol st.historyTable ≠ [] →
    r.last_updated = maxTs (symHistory r.symbol st.historyTable)

lemma filterMap_getDocIdKey_eq_nil (l : List HistoryEntry) :
    l.filterMap (fun e => getDocIdKey e) = [] := by
  induction l with
  | nil => rfl
  | cons a l ih => simp [List.filterMap_cons, getDocIdKey, ih]

/-- In the production store a trimming pass removes nothing: the harvested
id list is always empty, so every branch returns the table unchanged. -/
lemma trim_noop (sym : String) (K : Nat) (tbl : List HistoryEntry) :
    trim_asset_history sym K tbl = tbl := by
  simp only [trim_asset_history]
  split
  · rw [filterMap_getDocIdKey_eq_nil]
    rfl
  · rfl

/-- Shared sample metric payload for concrete witnesses. -/
def sampleMeta : MetricFields :=
  { latest_price := 100, change_percent_24h := 2, average_price_7d := 98 }

/-- Shared sample history entry for concrete witnesses. -/
def sampleEntry (s : String) (t d : Nat) : HistoryEntry :=
  { symbol := s, timestamp := t, metadata := sampleMeta, doc_id := d }

/-- Shared three-entry sample table for symbol A, with strictly increasing
timestamps and more than K = 1 entries. -/
def sampleTbl3 : List HistoryEntry :=
  [sampleEntry "A" 0 0, sampleEntry "A" 1 1, sampleEntry "A" 2 2]

/-- C1 (code bug): the claimed retention bound fails on the program.  On a
three-entry history for A, trimming with keep_last = 1 returns the table
unchanged and the post-trim count is 3, not at most 1: the ids harvested by
`e.get('doc_id')` are all None, so nothing is ever removed — contradicting
the function's own docstring, the repository's trim test and the spec. -/
theorem trim_retention_bound_violated :
    trim_asset_history "A" 1 sampleTbl3 = sampleTbl3
    ∧ ((trim_asset_history "A" 1 sampleTbl3).filter (fun e => e.symbol == "A")).length = 3
    ∧ ¬ ((trim_asset_history "A" 1 sampleTbl3).filter
          (fun e => e.symbol == "A")).length ≤ 1 := by
  decide

/-- C3: trimming twice in immediate succession with the same K leaves
exactly the surviving history of a single call, and the second call removes
nothing — in the production store neither call removes anything, since the
doc-id lookup returns None for every entry. -/
theorem trim_idempotent (sym : String) (K : Nat) (tbl : List HistoryEntry) :
    trim_asset_history sym K (trim_asset_history sym K tbl)
      = trim_asset_history sym K tbl := by
  rw [trim_noop, trim_noop]

/-- C2 (code bug): oldest-first eviction never happens.  On the same
three-entry history for A with strictly increasing timestamps and K = 1
below the count, trim should keep exactly the newest entry (timestamp 2);
the program removes nothing and all three entries survive. -/
theorem trim_oldest_first_eviction_violated :
    (sampleTbl3.filter (fun e => e.symbol == "A")).Pairwise
      (fun a b => a.timestamp < b.timestamp)
    ∧ trim_asset_history "A" 1 sampleTbl3 = sampleTbl3
    ∧ (trim_asset_history "A" 1 sampleTbl3).filter (fun e => e.symbol == "A")
      ≠ [sampleEntry "A" 2 2] := by
  decide

lemma insertionSortDesc_take_one {l : List HistoryEntry} {E : HistoryEntry}
    (hlt : ∀ x ∈ l, x.timestamp < E.timestamp) :
    (List.insertionSort tsGe (l ++ [E])).take 1 = [E] := by
  have hperm := List.perm_insertionSort tsGe (l ++ [E])
  have hsorted := List.sorted_insertionSort tsGe (l ++ [E])
  cases hsort : List.insertionSort tsGe (l ++ [E]) with
  | nil =>
    exfalso
    have hlen := hperm.length_eq
    rw [hsort] at hlen
    simp at hlen
  | cons h t =>
    rw [hsort] at hperm hsorted
    have hh : h ∈ l ++ [E] := hperm.subset (List.mem_cons_self h t)
    have hE : E ∈ h :: t := hperm.mem_iff.mpr (by simp)
    have hhE : h = E := by
      rcases List.mem_append.mp hh with hl | hr
      · exfalso
        have hlt2 : h.timestamp < E.timestamp := hlt h hl
        rcases List.mem_cons.mp hE with he | ht
        · rw [← he] at hlt2
          omega
        · have hge : tsGe h E := List.rel_of_sorted_cons hsorted E ht
          simp only [tsGe] at hge
          omega
      · simpa using hr
    simp [hhE]

lemma mem_symHistory_mem {s : String} {tbl : List HistoryEntry} {e : HistoryEntry}
    (h : e ∈ tbl.filter (fun x => x.symbol == s)) : e ∈ tbl :=
  List.mem_of_mem_filter h

/-- C4: after `save_asset_metadata(symbol, m)` on a well-formed store, a
current record for the symbol exists, every current record for the symbol
carries exactly the three metric fields of m (stamped with the fresh
timestamp), and `get_asset_history(symbol, 1)` returns exactly the new
history entry, whose metadata equals m. -/
theorem snapshot_effect (st : Store) (sym : String) (m : MetricFields) (hWF : WF st) :
    (∃ r ∈ (save_asset_metadata sym m st).currentTable, r.symbol = sym)
    ∧ (∀ r ∈ (save_asset_metadata sym m st).currentTable, r.symbol = sym →
        r.latest_price = m.latest_price ∧ r.change_percent_24h = m.change_percent_24h
        ∧ r.average_price_7d = m.average_price_7d ∧ r.last_updated = st.clock)
    ∧ get_asset_history sym 1 (save_asset_metadata sym m st).historyTable
      = [historyEntryFor sym m st.clock st.nextDocId] := by
  obtain ⟨hnd, hid, hts, hcur⟩ := hWF
  refine ⟨?_, ?_, ?_⟩
  · simp only [save_asset_metadata]
    by_cases hany : st.currentTable.any (fun r => r.symbol == sym)
    · rw [if_pos hany]
      obtain ⟨r0, hr0, hr0s⟩ := List.any_eq_true.mp hany
      exact ⟨currentRecordFor sym m st.clock,
        List.mem_map.mpr ⟨r0, hr0, by rw [if_pos hr0s]⟩, rfl⟩
    · rw [if_neg hany]
      exact ⟨currentRecordFor sym m st.clock, by simp, rfl⟩
  · intro r hr hrs
    simp only [save_asset_metadata] at hr
    by_cases hany : st.currentTable.any (fun r => r.symbol == sym)
    · rw [if_pos hany] at hr
      obtain ⟨r0, hr0, hr0e⟩ := List.mem_map.mp hr
      by_cases h0 : (r0.symbol == sym)
      · rw [if_pos h0] at hr0e
        rw [← hr0e]
        exact ⟨rfl, rfl, rfl, rfl⟩
      · rw [if_neg h0] at hr0e
        rw [← hr0e] at hrs
        exact absurd (by simp [hrs]) h0
    · rw [if_neg hany] at hr
      rcases List.mem_append.mp hr with hold | hnew
      · exfalso
        have hne : ¬ (r.symbol == sym) = true := by
          intro hc
          exact hany (List.any_eq_true.mpr ⟨r, hold, hc⟩)
        exact hne (by simp [hrs])
      · have hre : r = currentRecordFor sym m st.clock := by simpa using hnew
        rw [hre]
        exact ⟨rfl, rfl, rfl, rfl⟩
  · simp only [save_asset_metadata, get_asset_history, List.filter_append]
    have hfE : List.filter (fun e => e.symbol == sym)
        [historyEntryFor sym m st.clock st.nextDocId]
        = [historyEntryFor sym m st.clock st.nextDocId] := by
      simp [historyEntryFor]
    rw [hfE]
    exact insertionSortDesc_take_one (fun x hx => hts x (mem_symHistory_mem hx))

/-- Shared empty store used by concrete witnesses. -/
def emptyStore : Store :=
  { symbolsTable := [], historyTable := [], currentTable := [], nextDocId := 0, clock := 0 }

lemma emptyStore_WF : WF emptyStore := by
  refine ⟨List.nodup_nil, ?_, ?_, ?_⟩ <;> intro x hx <;> cases hx

/-- Witness for C4: saving a snapshot for symbol A on the empty store. -/
theorem snapshot_effect_witness :
    (∃ r ∈ (save_asset_metadata "A" sampleMeta emptyStore).currentTable, r.symbol = "A")
    ∧ (∀ r ∈ (save_asset_metadata "A" sampleMeta emptyStore).currentTable, r.symbol = "A" →
        r.latest_price = sampleMeta.latest_price
        ∧ r.change_percent_24h = sampleMeta.change_percent_24h
        ∧ r.average_price_7d = sampleMeta.average_price_7d
        ∧ r.last_updated = emptyStore.clock)
    ∧ get_asset_history "A" 1 (save_asset_metadata "A" sampleMeta emptyStore).historyTable
      = [historyEntryFor "A" sampleMeta emptyStore.clock emptyStore.nextDocId] :=
  snapshot_effect emptyStore "A" sampleMeta emptyStore_WF

lemma le_foldr_max {l : List Nat} {a : Nat} (h : a ∈ l) (i : Nat) : a ≤ l.foldr max i := by
  induction l with
  | nil => cases h
  | cons b t ih =>
    rcases List.mem_cons.mp h with rfl | ht
    · exact le_max_left _ _
    · exact le_trans (ih ht) (le_max_right _ _)

lemma foldr_max_le {l : List Nat} {i c : Nat} (hi : i ≤ c) (h : ∀ a ∈ l, a ≤ c) :
    l.foldr max i ≤ c := by
  induction l with
  | nil => simpa
  | cons b t ih =>
    exact max_le (h b (by simp)) (ih (fun a ha => h a (by simp [ha])))

lemma maxTs_le {l : List HistoryEntry} {c : Nat} (h : ∀ e ∈ l, e.timestamp ≤ c) :
    maxTs l ≤ c := by
  apply foldr_max_le (Nat.zero_le c)
  intro a ha
  obtain ⟨e, he, rfl⟩ := List.mem_map.mp ha
  exact h e he

lemma le_maxTs {l : List HistoryEntry} {e : HistoryEntry} (h : e ∈ l) :
    e.timestamp ≤ maxTs l :=
  le_foldr_max (List.mem_map_of_mem _ h) 0

lemma maxTs_snoc_eq {l : List HistoryEntry} {E : HistoryEntry}
    (h : ∀ x ∈ l, x.timestamp ≤ E.timestamp) : maxTs (l ++ [E]) = E.timestamp := by
  refine le_antisymm (maxTs_le ?_) (le_maxTs (List.mem_append_right _ (by simp)))
  intro e he
  rcases List.mem_append.mp he with h1 | h2
  · exact h e h1
  · rw [List.mem_singleton.mp h2]

lemma save_current_symbol_fields {st : Store} {sym : String} {m : MetricFields}
    {r : CurrentRecord} (hr : r ∈ (save_asset_metadata sym m st).currentTable)
    (hrs : r.symbol = sym) : r = currentRecordFor sym m st.clock := by
  simp only [save_asset_metadata] at hr
  by_cases hany : st.currentTable.any (fun x => x.symbol == sym)
  · rw [if_pos hany] at hr
    obtain ⟨r0, hr0, hr0e⟩ := List.mem_map.mp hr
    by_cases h0 : (r0.symbol == sym)
    · rw [if_pos h0] at hr0e
      exact hr0e.symm
    · rw [if_neg h0] at hr0e
      rw [← hr0e] at hrs
      exact absurd (by simp [hrs]) h0
  · rw [if_neg hany] at hr
    rcases List.mem_append.mp hr with hold | hnew
    · exfalso
      exact hany (List.any_eq_true.mpr ⟨r, hold, by simp [hrs]⟩)
    · simpa using hnew

lemma save_current_other {st : Store} {sym : String} {m : MetricFields}
    {r : CurrentRecord} (hr : r ∈ (save_asset_metadata sym m st).currentTable)
    (hrs : r.symbol ≠ sym) : r ∈ st.currentTable := by
  simp only [save_asset_metadata] at hr
  by_cases hany : st.currentTable.any (fun x => x.symbol == sym)
  · rw [if_pos hany] at hr
    obtain ⟨r0, hr0, hr0e⟩ := List.mem_map.mp hr
    by_cases h0 : (r0.symbol == sym)
    · rw [if_pos h0] at hr0e
      exfalso
      apply hrs
      rw [← hr0e]
      rfl
    · rw [if_neg h0] at hr0e
      rw [← hr0e]
      exact hr0
  · rw [if_neg hany] at hr
    rcases List.mem_append.mp hr with hold | hnew
    · exact hold
    · exfalso
      apply hrs
      rw [List.mem_singleton.mp hnew]
      rfl

lemma save_symHistory_self {st : Store} {sym : String} {m : MetricFields} :
    symHistory sym (save_asset_metadata sym m st).historyTable
      = symHistory sym st.historyTable ++ [historyEntryFor sym m st.clock st.nextDocId] := by
  simp [save_asset_metadata, symHistory, List.filter_append, historyEntryFor]

lemma save_symHistory_other {st : Store} {sym : String} {m : MetricFields}
    {s' : String} (hne : s' ≠ sym) :
    symHistory s' (save_asset_metadata sym m st).historyTable
      = symHistory s' st.historyTable := by
  have hb : (sym == s') = false := by
    simp
    exact fun hc => hne hc.symm
  simp [save_asset_metadata, symHistory, List.filter_append, historyEntryFor, hb]

lemma save_preserves_coherence {st : Store} {sym : String} {m : MetricFields}
    (hWF : WF st) (hco : timestampCoherent st) :
    timestampCoherent (save_asset_metadata sym m st) := by
  obtain ⟨hnd, hid, hts, hcur⟩ := hWF
  intro r hr hne
  by_cases hsym : r.symbol = sym
  · rw [save_current_symbol_fields hr hsym] at hne ⊢
    simp only [currentRecordFor] at hne ⊢
    rw [save_symHistory_self]
    have hmax : maxTs (symHistory sym st.historyTable
        ++ [historyEntryFor sym m st.clock st.nextDocId]) = st.clock :=
      maxTs_snoc_eq (fun x hx => Nat.le_of_lt (hts x (mem_symHistory_mem hx)))
    rw [hmax]
  · rw [save_symHistory_other hsym] at hne ⊢
    exact hco r (save_current_other hr hsym) hne

lemma trim_preserves_coherence {st : Store} (sym : String) (K : Nat)
    (hco : timestampCoherent st) :
    timestampCoherent
      { st with historyTable := trim_asset_history sym K st.historyTable } := by
  rw [trim_noop]
  exact hco

lemma truncate_preserves_coherence (st : Store) : timestampCoherent (truncate_db st) := by
  intro r hr hne
  exact absurd rfl hne

/-- C10 (amended): `save_asset_metadata` stamps the appended history entry
and the upserted current record with the same timestamp, so a well-formed
coherent store (current `last_updated` = newest history timestamp per
symbol) stays coherent under snapshot writes, under trimming — which in the
production store removes no entry at all, the `e.get('doc_id')` lookup
missing on every document — and under `truncate_db`, which clears the
symbols and history tables while leaving the current table in place. -/
theorem snapshot_timestamp_invariant (st : Store) (sym : String) (m : MetricFields)
    (hWF : WF st) (hco : timestampCoherent st) :
    (save_asset_metadata sym m st).historyTable
      = st.historyTable ++ [historyEntryFor sym m st.clock st.nextDocId]
    ∧ (∀ r ∈ (save_asset_metadata sym m st).currentTable, r.symbol = sym →
        r.last_updated = (historyEntryFor sym m st.clock st.nextDocId).timestamp)
    ∧ timestampCoherent (save_asset_metadata sym m st)
    ∧ (∀ K, timestampCoherent
        { st with historyTable := trim_asset_history sym K st.historyTable })
    ∧ timestampCoherent (truncate_db st) := by
  refine ⟨rfl, ?_, save_preserves_coherence hWF hco,
    fun K => trim_preserves_coherence sym K hco, truncate_preserves_coherence st⟩
  intro r hr hrs
  rw [save_current_symbol_fields hr hrs]
  rfl

/-- Witness for C10 at the empty store, which is well-formed and coherent. -/
theorem snapshot_timestamp_invariant_witness :
    (save_asset_metadata "A" sampleMeta emptyStore).historyTable
      = emptyStore.historyTable
        ++ [historyEntryFor "A" sampleMeta emptyStore.clock emptyStore.nextDocId]
    ∧ (∀ r ∈ (save_asset_metadata "A" sampleMeta emptyStore).currentTable, r.symbol = "A" →
        r.last_updated
          = (historyEntryFor "A" sampleMeta emptyStore.clock emptyStore.nextDocId).timestamp)
    ∧ timestampCoherent (save_asset_metadata "A" sampleMeta emptyStore)
    ∧ (∀ K, timestampCoherent
        { emptyStore with
          historyTable := trim_asset_history "A" K emptyStore.historyTable })
    ∧ timestampCoherent (truncate_db emptyStore) :=
  snapshot_timestamp_invariant emptyStore "A" sampleMeta emptyStore_WF
    (fun r hr => absurd hr (by simp [emptyStore]))

lemma gatherFetch_length (fetch : String → Option MetricFields) (symbols : List String) :
    ∀ st : Store, ((gatherFetch fetch symbols st).1).length = symbols.length := by
  induction symbols with
  | nil => intro st; rfl
  | cons s rest ih => intro st; simp [gatherFetch, ih]

lemma gatherFetch_get_none (fetch : String → Option MetricFields) (symbols : List String) :
    ∀ (st : Store) (i : Nat) (hi : i < symbols.length)
      (ho : i < ((gatherFetch fetch symbols st).1).length),
      fetch symbols[i] = none → ((gatherFetch fetch symbols st).1)[i] = none := by
  induction symbols with
  | nil => intro st i hi; simp at hi
  | cons s rest ih =>
    intro st i hi ho hf
    cases i with
    | zero =>
      simp only [List.getElem_cons_zero] at hf
      simp only [gatherFetch, List.getElem_cons_zero]
      simp [fetch_and_save_asset, hf]
    | succ i =>
      simp only [List.getElem_cons_succ] at hf
      simp only [gatherFetch, List.getElem_cons_succ]
      exact ih _ i (by simpa using hi) (by rw [gatherFetch_length]; simpa using hi) hf

lemma gatherFetch_get_some (fetch : String → Option MetricFields) (symbols : List String) :
    ∀ (st : Store) (i : Nat) (hi : i < symbols.length)
      (ho : i < ((gatherFetch fetch symbols st).1).length) (m : MetricFields),
      fetch symbols[i] = some m →
      ∃ t, ((gatherFetch fetch symbols st).1)[i]
        = some (build_asset_with_metadata symbols[i] m t) := by
  induction symbols with
  | nil => intro st i hi; simp at hi
  | cons s rest ih =>
    intro st i hi ho m hf
    cases i with
    | zero =>
      simp only [List.getElem_cons_zero] at hf
      simp only [gatherFetch, List.getElem_cons_zero]
      exact ⟨(save_asset_metadata s m st).clock, by simp [fetch_and_save_asset, hf]⟩
    | succ i =>
      simp only [List.getElem_cons_succ] at hf
      simp only [gatherFetch, List.getElem_cons_succ]
      exact ih _ i (by simpa using hi) (by rw [gatherFetch_length]; simpa using hi) m hf

/-- C5: `add_assets_service` returns exactly one record per input symbol, in
input order: a failed fetch yields the bare-symbol placeholder (all metric
fields unset) and a successful fetch yields the built record carrying the
fetched metric fields under the input symbol. -/
theorem add_assets_order_preservation (fetch : String → Option MetricFields)
    (symbols : List String) (st : Store) :
    ((add_assets_service fetch symbols st).1).length = symbols.length
    ∧ ∀ (i : Nat) (hi : i < symbols.length)
        (ho : i < ((add_assets_service fetch symbols st).1).length),
        (fetch symbols[i] = none →
          ((add_assets_service fetch symbols st).1)[i] = placeholderAsset symbols[i])
        ∧ (∀ m, fetch symbols[i] = some m →
            (((add_assets_service fetch symbols st).1)[i]).symbol = symbols[i]
            ∧ (((add_assets_service fetch symbols st).1)[i]).latest_price
              = some m.latest_price
            ∧ (((add_assets_service fetch symbols st).1)[i]).change_percent_24h
              = some m.change_percent_24h
            ∧ (((add_assets_service fetch symbols st).1)[i]).average_price_7d
              = some m.average_price_7d) := by
  constructor
  · simp [add_assets_service, gatherFetch_length]
  · intro i hi ho
    have hro : i < ((gatherFetch fetch symbols st).1).length := by
      rw [gatherFetch_length]
      exact hi
    constructor
    · intro hf
      have hnone := gatherFetch_get_none fetch symbols st i hi hro hf
      simp only [add_assets_service, List.getElem_map, List.getElem_zip]
      rw [hnone]
    · intro m hf
      obtain ⟨t, ht⟩ := gatherFetch_get_some fetch symbols st i hi hro m hf
      simp only [add_assets_service, List.getElem_map, List.getElem_zip]
      rw [ht]
      exact ⟨rfl, rfl, rfl, rfl⟩

/-- Data-source oracle for concrete witnesses: data for AAA, nothing for
BBB. -/
def fetchW (s : String) : Option MetricFields :=
  if s == "AAA" then some sampleMeta else none

/-- Witness for C5: `add_assets_service(["AAA", "BBB"])` where BBB's fetch
fails returns two records in order, with a placeholder in position 1. -/
theorem add_assets_order_preservation_witness :
    ((add_assets_service fetchW ["AAA", "BBB"] emptyStore).1).length = 2
    ∧ ((add_assets_service fetchW ["AAA", "BBB"] emptyStore).1).get ⟨1, by decide⟩
      = placeholderAsset "BBB"
    ∧ (((add_assets_service fetchW ["AAA", "BBB"] emptyStore).1).get ⟨0, by decide⟩).symbol
      = "AAA"
    ∧ (((add_assets_service fetchW ["AAA", "BBB"] emptyStore).1).get ⟨0, by decide⟩).latest_price
      = some sampleMeta.latest_price := by
  have h := add_assets_order_preservation fetchW ["AAA", "BBB"] emptyStore
  refine ⟨h.1, (h.2 1 (by decide) (by decide)).1 (by decide), ?_, ?_⟩
  · exact ((h.2 0 (by decide) (by decide)).2 sampleMeta (by decide)).1
  · exact ((h.2 0 (by decide) (by decide)).2 sampleMeta (by decide)).2.1

/-- Success messages contributed by one ingested symbol. -/
def ingestSuccOut (fetch : String → Option MetricFields) (is_valid : String → Bool)
    (all_symbols : List String) (s : String) : List String :=
  match fetch s with
  | none => []
  | some _ =>
    if s ∈ all_symbols then [updatedMsg s]
    else if ¬ validate_symbol_format s then []
    else if ¬ is_valid s then []
    else [addedMsg s]

/-- Error messages contributed by one ingested symbol. -/
def ingestErrOut (fetch : String → Option MetricFields) (is_valid : String → Bool)
    (all_symbols : List String) (s : String) : List String :=
  match fetch s with
  | none => [couldNotFetchMsg s]
  | some _ =>
    if s ∈ all_symbols then []
    else if ¬ validate_symbol_format s then [invalidFormatMsg s]
    else if ¬ is_valid s then [notValidMsg s]
    else []

/-- Concatenation of per-symbol message contributions, in input order. -/
def flatOut (f : String → List String) : List String → List String
  | [] => []
  | s :: rest => f s ++ flatOut f rest

lemma mem_flatOut {f : String → List String} {l : List String} {x : String} :
    x ∈ flatOut f l ↔ ∃ s ∈ l, x ∈ f s := by
  induction l with
  | nil => simp [flatOut]
  | cons s rest ih =>
    simp only [flatOut, List.mem_append, ih, List.mem_cons]
    constructor
    · rintro (h | ⟨s2, hs2, hx⟩)
      · exact ⟨s, Or.inl rfl, h⟩
      · exact ⟨s2, Or.inr hs2, hx⟩
    · rintro ⟨s2, h | hs2, hx⟩
      · exact Or.inl (h ▸ hx)
      · exact Or.inr ⟨s2, hs2, hx⟩

lemma string_append_left_cancel {a b c : String} (h : a ++ b = a ++ c) : b = c := by
  apply String.ext
  have h2 := congrArg String.data h
  simp only [String.data_append] at h2
  exact List.append_cancel_left h2

lemma updatedMsg_inj {a b : String} (h : updatedMsg a = updatedMsg b) : a = b :=
  string_append_left_cancel h

lemma addedMsg_inj {a b : String} (h : addedMsg a = addedMsg b) : a = b := by
  have h2 := congrArg String.data h
  simp only [addedMsg, String.data_append] at h2
  apply String.ext
  exact List.append_cancel_left (List.append_cancel_right h2)

lemma updatedMsg_ne_addedMsg (a b : String) : updatedMsg a ≠ addedMsg b := by
  intro h
  have h2 := congrArg String.data h
  simp only [updatedMsg, addedMsg, String.data_append] at h2
  simp [String.data] at h2

lemma ingestLoop_spec (fetch : String → Option MetricFields) (is_valid : String → Bool)
    (all_symbols : List String) (symbols : List String) :
    ∀ (results : List AssetWithMetadata) (succ err : List String) (st : Store),
      ((ingestLoop fetch is_valid all_symbols symbols results succ err st).1.map
          (fun r => r.symbol)
        = results.map (fun r => r.symbol) ++ symbols.filter (fun s => (fetch s).isSome))
      ∧ (ingestLoop fetch is_valid all_symbols symbols results succ err st).2.1
        = succ ++ flatOut (ingestSuccOut fetch is_valid all_symbols) symbols
      ∧ (ingestLoop fetch is_valid all_symbols symbols results succ err st).2.2.1
        = err ++ flatOut (ingestErrOut fetch is_valid all_symbols) symbols
      ∧ (ingestLoop fetch is_valid all_symbols symbols results succ err st).1.length
        = results.length + (symbols.filter (fun s => (fetch s).isSome)).length := by
  induction symbols with
  | nil => intro results succ err st; simp [ingestLoop, flatOut]
  | cons s rest ih =>
    intro results succ err st
    cases hf : fetch s with
    | none =>
      have hred : ingestLoop fetch is_valid all_symbols (s :: rest) results succ err st
          = ingestLoop fetch is_valid all_symbols rest results succ
              (err ++ [couldNotFetchMsg s]) (fetch_and_save_asset fetch s st).2 := by
        simp [ingestLoop, fetch_and_save_asset, hf]
      rw [hred]
      obtain ⟨h1, h2, h3, h4⟩ := ih results succ (err ++ [couldNotFetchMsg s])
        (fetch_and_save_asset fetch s st).2
      refine ⟨?_, ?_, ?_, ?_⟩
      · simp [h1, hf]
      · simp [h2, flatOut, ingestSuccOut, hf]
      · simp [h3, flatOut, ingestErrOut, hf]
      · simp [h4, hf]
    | some m =>
      by_cases hmem : s ∈ all_symbols
      · have hred : ingestLoop fetch is_valid all_symbols (s :: rest) results succ err st
            = ingestLoop fetch is_valid all_symbols rest
                (results ++ [(fetch_and_save_asset fetch s st).1.getD (placeholderAsset s)])
                (succ ++ [updatedMsg s]) err (fetch_and_save_asset fetch s st).2 := by
          simp [ingestLoop, fetch_and_save_asset, hf, hmem]
        rw [hred]
        obtain ⟨h1, h2, h3, h4⟩ := ih
          (results ++ [(fetch_and_save_asset fetch s st).1.getD (placeholderAsset s)])
          (succ ++ [updatedMsg s]) err (fetch_and_save_asset fetch s st).2
        refine ⟨?_, ?_, ?_, ?_⟩
        · have hsym : ((fetch_and_save_asset fetch s st).1.getD (placeholderAsset s)).symbol
              = s := by
            simp [fetch_and_save_asset, hf, build_asset_with_metadata]
          rw [h1]
          simp [hsym, hf]
        · simp [h2, flatOut, ingestSuccOut, hf, hmem]
        · simp [h3, flatOut, ingestErrOut, hf, hmem]
        · simp [h4, hf]
          omega
      · by_cases hfmt : validate_symbol_format s
        · by_cases hval : is_valid s
          · have hred : ingestLoop fetch is_valid all_symbols (s :: rest) results succ err st
                = ingestLoop fetch is_valid all_symbols rest
                    (results ++
                      [(fetch_and_save_asset fetch s st).1.getD (placeholderAsset s)])
                    (succ ++ [addedMsg s]) err
                    (add_symbol_with_metadata is_valid s
                      (assetFields
                        ((fetch_and_save_asset fetch s st).1.getD (placeholderAsset s)))
                      (fetch_and_save_asset fetch s st).2).2 := by
              simp [ingestLoop, fetch_and_save_asset, hf, hmem, add_symbol_with_metadata,
                hfmt, hval]
            rw [hred]
            obtain ⟨h1, h2, h3, h4⟩ := ih
              (results ++ [(fetch_and_save_asset fetch s st).1.getD (placeholderAsset s)])
              (succ ++ [addedMsg s]) err
              (add_symbol_with_metadata is_valid s
                (assetFields ((fetch_and_save_asset fetch s st).1.getD (placeholderAsset s)))
                (fetch_and_save_asset fetch s st).2).2
            refine ⟨?_, ?_, ?_, ?_⟩
            · have hsym : ((fetch_and_save_asset fetch s st).1.getD (placeholderAsset s)).symbol
                  = s := by
                simp [fetch_and_save_asset, hf, build_asset_with_metadata]
              rw [h1]
              simp [hsym, hf]
            · simp [h2, flatOut, ingestSuccOut, hf, hmem, hfmt, hval]
            · simp [h3, flatOut, ingestErrOut, hf, hmem, hfmt, hval]
            · simp [h4, hf]
              omega
          · have hred : ingestLoop fetch is_valid all_symbols (s :: rest) results succ err st
                = ingestLoop fetch is_valid all_symbols rest
                    (results ++
                      [(fetch_and_save_asset fetch s st).1.getD (placeholderAsset s)])
                    succ (err ++ [notValidMsg s])
                    (add_symbol_with_metadata is_valid s
                      (assetFields
                        ((fetch_and_save_asset fetch s st).1.getD (placeholderAsset s)))
                      (fetch_and_save_asset fetch s st).2).2 := by
              simp [ingestLoop, fetch_and_save_asset, hf, hmem, add_symbol_with_metadata,
                hfmt, hval]
            rw [hred]
            obtain ⟨h1, h2, h3, h4⟩ := ih
              (results ++ [(fetch_and_save_asset fetch s st).1.getD (placeholderAsset s)])
              succ (err ++ [notValidMsg s])
              (add_symbol_with_metadata is_valid s
                (assetFields ((fetch_and_save_asset fetch s st).1.getD (placeholderAsset s)))
                (fetch_and_save_asset fetch s st).2).2
            refine ⟨?_, ?_, ?_, ?_⟩
            · have hsym : ((fetch_and_save_asset fetch s st).1.getD (placeholderAsset s)).symbol
                  = s := by
                simp [fetch_and_save_asset, hf, build_asset_with_metadata]
              rw [h1]
              simp [hsym, hf]
            · simp [h2, flatOut, ingestSuccOut, hf, hmem, hfmt, hval]
            · simp [h3, flatOut, ingestErrOut, hf, hmem, hfmt, hval]
            · simp [h4, hf]
              omega
        · have hred : ingestLoop fetch is_valid all_symbols (s :: rest) results succ err st
              = ingestLoop fetch is_valid all_symbols rest
                  (results ++
                    [(fetch_and_save_asset fetch s st).1.getD (placeholderAsset s)])
                  succ (err ++ [invalidFormatMsg s]) (fetch_and_save_asset fetch s st).2 := by
            simp [ingestLoop, fetch_and_save_asset, hf, hmem, add_symbol_with_metadata, hfmt]
          rw [hred]
          obtain ⟨h1, h2, h3, h4⟩ := ih
            (results ++ [(fetch_and_save_asset fetch s st).1.getD (placeholderAsset s)])
            succ (err ++ [invalidFormatMsg s]) (fetch_and_save_asset fetch s st).2
          refine ⟨?_, ?_, ?_, ?_⟩
          · have hsym : ((fetch_and_save_asset fetch s st).1.getD (placeholderAsset s)).symbol
                = s := by
              simp [fetch_and_save_asset, hf, build_asset_with_metadata]
            rw [h1]
            simp [hsym, hf]
          · simp [h2, flatOut, ingestSuccOut, hf, hmem, hfmt]
          · simp [h3, flatOut, ingestErrOut, hf, hmem, hfmt]
          · simp [h4, hf]
            omega

lemma ingest_result_spec (fetch : String → Option MetricFields) (is_valid : String → Bool)
    (symbols : List String) (st : Store) :
    (ingest_assets_service fetch is_valid symbols st).1.updated_assets
      = symbols.filter (fun s => (fetch s).isSome)
    ∧ (ingest_assets_service fetch is_valid symbols st).1.updated_count
      = (symbols.filter (fun s => (fetch s).isSome)).length
    ∧ (ingest_assets_service fetch is_valid symbols st).1.message
      = processedMsg symbols.length
    ∧ (ingest_assets_service fetch is_valid symbols st).1.success_messages
      = flatOut (ingestSuccOut fetch is_valid (get_symbols st).1) symbols
    ∧ (ingest_assets_service fetch is_valid symbols st).1.error_messages
      = flatOut (ingestErrOut fetch is_valid (get_symbols st).1) symbols := by
  obtain ⟨h1, h2, h3, h4⟩ :=
    ingestLoop_spec fetch is_valid (get_symbols st).1 symbols [] [] [] (get_symbols st).2
  exact ⟨by simpa using h1, by simpa using h4, rfl, by simpa using h2, by simpa using h3⟩

/-- C6 (amended): for every input, `ingest_assets_service` counts exactly
the fetch successes as updated, lists them in input order in
`updated_assets`, reports the full input length in the processed message,
and for every symbol whose fetch returned empty records the error message
"Could not fetch data for `<symbol>`" (capital C, as the code writes it),
that symbol appearing in no success message and not in `updated_assets`. -/
theorem ingest_partial_batch (fetch : String → Option MetricFields)
    (is_valid : String → Bool) (symbols : List String) (st : Store) :
    (ingest_assets_service fetch is_valid symbols st).1.updated_count
      = (symbols.filter (fun s => (fetch s).isSome)).length
    ∧ (ingest_assets_service fetch is_valid symbols st).1.updated_assets
      = symbols.filter (fun s => (fetch s).isSome)
    ∧ (ingest_assets_service fetch is_valid symbols st).1.message
      = processedMsg symbols.length
    ∧ ∀ s ∈ symbols, fetch s = none →
        couldNotFetchMsg s ∈ (ingest_assets_service fetch is_valid symbols st).1.error_messages
        ∧ s ∉ (ingest_assets_service fetch is_valid symbols st).1.updated_assets
        ∧ updatedMsg s ∉ (ingest_assets_service fetch is_valid symbols st).1.success_messages
        ∧ addedMsg s ∉ (ingest_assets_service fetch is_valid symbols st).1.success_messages := by
  obtain ⟨hu, hc, hm, hs, he⟩ := ingest_result_spec fetch is_valid symbols st
  refine ⟨hc, hu, hm, ?_⟩
  intro s hsm hf
  have hsucc : ∀ x, x ∈ (ingest_assets_service fetch is_valid symbols st).1.success_messages →
      ∃ s2, s2 ∈ symbols ∧ (fetch s2).isSome
        ∧ (x = updatedMsg s2 ∨ x = addedMsg s2) := by
    intro x hx
    rw [hs] at hx
    obtain ⟨s2, hs2, hx2⟩ := mem_flatOut.mp hx
    refine ⟨s2, hs2, ?_, ?_⟩
    · cases hf2 : fetch s2 with
      | none => rw [ingestSuccOut, hf2] at hx2; cases hx2
      | some _ => simp
    · cases hf2 : fetch s2 with
      | none => rw [ingestSuccOut, hf2] at hx2; cases hx2
      | some m2 =>
        rw [ingestSuccOut, hf2] at hx2
        by_cases h1 : s2 ∈ (get_symbols st).1
        · rw [if_pos h1] at hx2
          exact Or.inl (List.mem_singleton.mp hx2)
        · rw [if_neg h1] at hx2
          by_cases h2 : validate_symbol_format s2
          · by_cases h3 : is_valid s2
            · rw [if_neg (by simpa using h2), if_neg (by simpa using h3)] at hx2
              exact Or.inr (List.mem_singleton.mp hx2)
            · rw [if_neg (by simpa using h2), if_pos (by simpa using h3)] at hx2
              cases hx2
          · rw [if_pos (by simpa using h2)] at hx2
            cases hx2
  refine ⟨?_, ?_, ?_, ?_⟩
  · rw [he]
    exact mem_flatOut.mpr ⟨s, hsm, by rw [ingestErrOut, hf]; simp⟩
  · rw [hu]
    intro hmem
    rw [List.mem_filter] at hmem
    rw [hf] at hmem
    simp at hmem
  · intro hmem
    obtain ⟨s2, _, hsome, heq | heq⟩ := hsucc _ hmem
    · rw [updatedMsg_inj heq] at hf
      rw [hf] at hsome
      simp at hsome
    · exact updatedMsg_ne_addedMsg s s2 heq
  · intro hmem
    obtain ⟨s2, _, hsome, heq | heq⟩ := hsucc _ hmem
    · exact updatedMsg_ne_addedMsg s2 s heq.symm
    · rw [addedMsg_inj heq] at hf
      rw [hf] at hsome
      simp at hsome

/-- Data-source oracle for the ingestion scenario: data for every symbol
except BBB. -/
def fetchBatch (s : String) : Option MetricFields :=
  if s == "BBB" then none else some sampleMeta

/-- Existence oracle accepting every symbol. -/
def allValid : String → Bool := fun _ => true

/-- Existence oracle rejecting every symbol. -/
def noneValid : String → Bool := fun _ => false

/-- Store already tracking AAA and CCC. -/
def trackedStore : Store :=
  { symbolsTable := [["AAA", "CCC"]], historyTable := [], currentTable := [],
    nextDocId := 0, clock := 0 }

/-- C6 counterexample: in the partial-batch scenario the recorded error
message is "Could not fetch data for BBB" (capital C); the lowercase
message stated by the claim does not appear in `error_messages`. -/
theorem ingest_partial_batch_counterexample :
    (ingest_assets_service fetchBatch allValid ["AAA", "BBB", "CCC"]
      trackedStore).1.updated_count = 2
    ∧ (ingest_assets_service fetchBatch allValid ["AAA", "BBB", "CCC"]
        trackedStore).1.updated_assets = ["AAA", "CCC"]
    ∧ (ingest_assets_service fetchBatch allValid ["AAA", "BBB", "CCC"]
        trackedStore).1.error_messages = ["Could not fetch data for BBB"]
    ∧ "could not fetch data for BBB"
      ∉ (ingest_assets_service fetchBatch allValid ["AAA", "BBB", "CCC"]
          trackedStore).1.error_messages := by
  decide

/-- Witness for the amended C6 at the concrete partial-batch scenario. -/
theorem ingest_partial_batch_witness :
    (ingest_assets_service fetchBatch allValid ["AAA", "BBB", "CCC"]
        trackedStore).1.updated_count
      = (["AAA", "BBB", "CCC"].filter (fun s => (fetchBatch s).isSome)).length
    ∧ (ingest_assets_service fetchBatch allValid ["AAA", "BBB", "CCC"]
          trackedStore).1.updated_assets
      = ["AAA", "BBB", "CCC"].filter (fun s => (fetchBatch s).isSome)
    ∧ (ingest_assets_service fetchBatch allValid ["AAA", "BBB", "CCC"]
          trackedStore).1.message
      = processedMsg (["AAA", "BBB", "CCC"] : List String).length
    ∧ (couldNotFetchMsg "BBB" ∈ (ingest_assets_service fetchBatch allValid
          ["AAA", "BBB", "CCC"] trackedStore).1.error_messages
        ∧ "BBB" ∉ (ingest_assets_service fetchBatch allValid
            ["AAA", "BBB", "CCC"] trackedStore).1.updated_assets
        ∧ updatedMsg "BBB" ∉ (ingest_assets_service fetchBatch allValid
            ["AAA", "BBB", "CCC"] trackedStore).1.success_messages
        ∧ addedMsg "BBB" ∉ (ingest_assets_service fetchBatch allValid
            ["AAA", "BBB", "CCC"] trackedStore).1.success_messages) := by
  have h := ingest_partial_batch fetchBatch allValid ["AAA", "BBB", "CCC"] trackedStore
  exact ⟨h.1, h.2.1, h.2.2.1, h.2.2.2 "BBB" (by decide) (by decide)⟩

/-- C9 (amended): when a fetch succeeds for an untracked symbol but the
registration recheck fails, the failure message is recorded in
`error_messages`, yet the symbol is still counted as updated: it appears in
`updated_assets` (and hence contributes to `updated_count`). -/
theorem ingest_registration_failure (fetch : String → Option MetricFields)
    (is_valid : String → Bool) (symbols : List String) (st : Store) (s : String)
    (hs : s ∈ symbols) (hf : (fetch s).isSome = true)
    (hmem : s ∉ (get_symbols st).1)
    (hreg : ¬(validate_symbol_format s = true ∧ is_valid s = true)) :
    (invalidFormatMsg s
        ∈ (ingest_assets_service fetch is_valid symbols st).1.error_messages
      ∨ notValidMsg s
        ∈ (ingest_assets_service fetch is_valid symbols st).1.error_messages)
    ∧ s ∈ (ingest_assets_service fetch is_valid symbols st).1.updated_assets := by
  obtain ⟨hu, hc, hm2, hsc, he⟩ := ingest_result_spec fetch is_valid symbols st
  obtain ⟨m, hm⟩ := Option.isSome_iff_exists.mp hf
  constructor
  · by_cases h2 : validate_symbol_format s
    · have h3 : ¬ (is_valid s = true) := fun hv => hreg ⟨h2, hv⟩
      right
      rw [he]
      refine mem_flatOut.mpr ⟨s, hs, ?_⟩
      rw [ingestErrOut, hm]
      simp [hmem, h2, h3]
    · left
      rw [he]
      refine mem_flatOut.mpr ⟨s, hs, ?_⟩
      rw [ingestErrOut, hm]
      simp [hmem, h2]
  · rw [hu]
    exact List.mem_filter.mpr ⟨hs, hf⟩

/-- Data-source oracle with data only for ZZZZ. -/
def fetchZ (s : String) : Option MetricFields :=
  if s == "ZZZZ" then some sampleMeta else none

/-- Store already tracking only AAPL. -/
def regStore : Store :=
  { symbolsTable := [["AAPL"]], historyTable := [], currentTable := [],
    nextDocId := 0, clock := 0 }

/-- C9 counterexample: fetch for ZZZZ succeeds, its registration fails
(existence recheck rejects it), the failure message is recorded — and yet
`updated_count` is 1 and ZZZZ appears in the updated list, contradicting
the claim that such a symbol is not counted as updated. -/
theorem ingest_registration_failure_counterexample :
    notValidMsg "ZZZZ"
      ∈ (ingest_assets_service fetchZ noneValid ["ZZZZ"] regStore).1.error_messages
    ∧ (ingest_assets_service fetchZ noneValid ["ZZZZ"] regStore).1.updated_count = 1
    ∧ "ZZZZ" ∈ (ingest_assets_service fetchZ noneValid ["ZZZZ"] regStore).1.updated_assets := by
  decide

/-- Witness for the amended C9 at the concrete scenario. -/
theorem ingest_registration_failure_witness :
    (invalidFormatMsg "ZZZZ"
        ∈ (ingest_assets_service fetchZ noneValid ["ZZZZ"] regStore).1.error_messages
      ∨ notValidMsg "ZZZZ"
        ∈ (ingest_assets_service fetchZ noneValid ["ZZZZ"] regStore).1.error_messages)
    ∧ "ZZZZ" ∈ (ingest_assets_service fetchZ noneValid ["ZZZZ"] regStore).1.updated_assets :=
  ingest_registration_failure fetchZ noneValid ["ZZZZ"] regStore "ZZZZ"
    (by decide) (by decide) (by decide) (by decide)

/-- C7: if no input symbol passes both the format check and the existence
check, `save_symbols` returns the empty list and leaves the whole store —
in particular the persisted tracked-symbol table — exactly unchanged. -/
theorem register_failure_atomicity (is_valid : String → Bool) (symbols : List String)
    (st : Store)
    (h : ∀ s ∈ symbols, ¬(validate_symbol_format s = true ∧ is_valid s = true)) :
    save_symbols is_valid symbols st = ([], st) := by
  simp only [save_symbols]
  by_cases h1 : (symbols.filter validate_symbol_format).isEmpty
  · rw [if_pos h1]
  · rw [if_neg h1]
    have h2 : ((symbols.filter validate_symbol_format).filter is_valid).isEmpty = true := by
      rw [List.isEmpty_iff, List.filter_eq_nil_iff]
      intro a ha hv
      have hmf := List.mem_filter.mp ha
      exact h a hmf.1 ⟨hmf.2, hv⟩
    rw [if_pos h2]

/-- Witness for C7: registering a single symbol that fails both checks on
the empty store is a complete no-op. -/
theorem register_failure_atomicity_witness :
    save_symbols noneValid ["bad"] emptyStore = ([], emptyStore) :=
  register_failure_atomicity noneValid ["bad"] emptyStore (by decide)

/-- Data-source oracle for the end-to-end registration example: data exists
for AAPL and GOOG only. -/
def sourceW (s : String) : Bool := s == "AAPL" || s == "GOOG"

/-- C8 counterexample: registering ["AAPL", "bad", "GOOG"] on a fresh store
leaves BTC-USD (a seeded default) in the tracked set too, so the membership
is not exactly {AAPL, GOOG}. -/
theorem register_example_counterexample :
    "AAPL" ∈ (get_symbols (save_symbols sourceW ["AAPL", "bad", "GOOG"] emptyStore).2).1
    ∧ "GOOG" ∈ (get_symbols (save_symbols sourceW ["AAPL", "bad", "GOOG"] emptyStore).2).1
    ∧ "BTC-USD" ∈ (get_symbols (save_symbols sourceW ["AAPL", "bad", "GOOG"] emptyStore).2).1
    ∧ "BTC-USD" ∉ (["AAPL", "GOOG"] : List String) := by
  decide

/-- C8 (amended): the end-to-end registration example leaves the tracked
set with membership exactly {AAPL, GOOG} ∪ the three seeded defaults,
because reading the empty registry seeds the default symbols before the
union is persisted. -/
theorem register_example_amended :
    ∀ x, x ∈ (get_symbols (save_symbols sourceW ["AAPL", "bad", "GOOG"] emptyStore).2).1
      ↔ (x ∈ (["AAPL", "GOOG"] : List String) ∨ x ∈ default_symbols) := by
  intro x
  have h : (get_symbols (save_symbols sourceW ["AAPL", "bad", "GOOG"] emptyStore).2).1
      = ["BTC-USD", "ETH-USD", "TSLA", "AAPL", "GOOG"] := by decide
  rw [h]
  simp only [default_symbols, List.mem_cons, List.mem_singleton, List.not_mem_nil]
  tauto

/-- C10 counterexample: the full reset (`truncate_db`) does not clear "both
tables" in the sense of current-plus-history: after saving one snapshot and
resetting, the history and symbols tables are empty but the current record
survives. -/
theorem snapshot_timestamp_invariant_counterexample :
    (truncate_db (save_asset_metadata "A" sampleMeta emptyStore)).currentTable ≠ []
    ∧ (truncate_db (save_asset_metadata "A" sampleMeta emptyStore)).historyTable = []
    ∧ (truncate_db (save_asset_metadata "A" sampleMeta emptyStore)).symbolsTable = [] := by
  decide
